import Mathlib

/-!
Shallow embedding of the `ssq` single-slot queue (src/src/lib.rs) and proofs of
its specified properties, in a sequential execution model.

Modelling choices:
* The `AtomicBool` inside `LightLock` is a `Bool` (`true` = locked).
* A `LightGuard` is represented by the fact that `try_lock` returned `some ()`;
  dropping the guard is the function `LightGuard.drop`, which stores `false`.
* `LightLock::lock` busy-waits; in a sequential model nothing else can change
  the flag between iterations, so the loop is given explicit fuel and returns
  `none` when it never acquires the lock (the real code would spin forever).
* `SingleSlotQueue<T>` is a structure with fields `full : Bool`,
  `writing : Bool` (the `LightLock`'s flag) and `val : Option T`, where
  `val = none` models the `MaybeUninit` slot being uninitialized. A
  `ptr::read` of the slot is modelled by reading `val`.
* Operations that may block forever (because they call `lock`) return
  `Option`, `none` meaning the operation never returns.
-/

namespace Ssq

/-- `LightLock::try_lock` (src/src/lib.rs:49-56): `swap(true, Acquire)` on the
flag; if it was already locked return `none`, otherwise return a guard
(`some ()`). The flag is `true` afterwards in both cases. -/
def try_lock (flag : Bool) : Option Unit × Bool :=
  let was_locked := flag
  let flag' := true
  if was_locked then (none, flag') else (some (), flag')

/-- `Drop for LightGuard` (src/src/lib.rs:63-67): store `false` into the
lock's flag. -/
def LightGuard.drop (_flag : Bool) : Bool := false

/-- `LightLock::lock` (src/src/lib.rs:40-47): busy-wait loop retrying
`try_lock` until it succeeds. `fuel` bounds the number of iterations modelled;
in the sequential model the flag never changes between iterations. -/
def lock : Nat → Bool → Option Bool
  | 0, _ => none
  | fuel + 1, flag =>
    match try_lock flag with
    | (none, flag') => lock fuel flag'
    | (some _, flag') => some flag'

/-- `SingleSlotQueue<T>` (src/src/lib.rs:70-75): the `full` flag, the
`writing` lock's flag, and the slot (`none` = uninitialized). -/
structure SingleSlotQueue (T : Type) where
  full : Bool
  writing : Bool
  val : Option T
deriving Repr, DecidableEq

variable {T : Type}

/-- `SingleSlotQueue::new` (src/src/lib.rs:77-83): empty queue, lock
unlocked, slot uninitialized. -/
def SingleSlotQueue.new (T : Type) : SingleSlotQueue T :=
  { full := false, writing := false, val := none }

/-- `Producer::enqueue` (src/src/lib.rs:160-168): if `full` is false, write
the value into the slot, set `full`, return `none`; otherwise hand the value
back unchanged. -/
def enqueue (q : SingleSlotQueue T) (v : T) : Option T × SingleSlotQueue T :=
  if !q.full then
    let q := { q with val := some v }
    (none, { q with full := true })
  else
    (some v, q)

/-- `Consumer::dequeue` (src/src/lib.rs:112-122): if `full`, take the writing
lock, read the slot out, clear `full`, release the lock (guard drop) and
return the value; otherwise return `none` without touching the lock. -/
def dequeue (fuel : Nat) (q : SingleSlotQueue T) :
    Option (Option T × SingleSlotQueue T) :=
  if q.full then
    match lock fuel q.writing with
    | none => none
    | some w =>
      let q := { q with writing := w }
      let r := q.val
      let q := { q with full := false }
      some (r, { q with writing := LightGuard.drop q.writing })
  else
    some (none, q)

/-- `Consumer::peek` (src/src/lib.rs:137-145): like `dequeue`'s read path but
without clearing `full`; duplicates the in-place value (`T : Copy`). -/
def peek (fuel : Nat) (q : SingleSlotQueue T) :
    Option (Option T × SingleSlotQueue T) :=
  if q.full then
    match lock fuel q.writing with
    | none => none
    | some w =>
      let q := { q with writing := w }
      some (q.val, { q with writing := LightGuard.drop q.writing })
  else
    some (none, q)

/-- `Producer::enqueue_overwrite` (src/src/lib.rs:175-181): take the writing
lock, clear `full`, write the slot, set `full`, release the lock. -/
def enqueue_overwrite (fuel : Nat) (q : SingleSlotQueue T) (v : T) :
    Option (SingleSlotQueue T) :=
  match lock fuel q.writing with
  | none => none
  | some w =>
    let q := { q with writing := w }
    let q := { q with full := false }
    let q := { q with val := some v }
    let q := { q with full := true }
    some { q with writing := LightGuard.drop q.writing }

/-- `Consumer::is_empty` / `Producer::is_empty` (src/src/lib.rs:126-128,
184-186): relaxed load of `full`, inverted. -/
def is_empty (q : SingleSlotQueue T) : Bool := !q.full

/-- `Drop for SingleSlotQueue` (src/src/lib.rs:90-98): the list of values
whose destructor runs — if `full` is set, `drop_in_place` is called on the
slot's value; otherwise the slot is never read and nothing is dropped. -/
def SingleSlotQueue.destroy (q : SingleSlotQueue T) : List T :=
  if q.full then
    match q.val with
    | some x => [x]
    | none => []
  else
    []

/-- The public operations reachable through the `Producer` and `Consumer`
handles, for reasoning about arbitrary call sequences. -/
inductive Op (T : Type) where
  | enqueueOp : T → Op T
  | enqueueOverwriteOp : T → Op T
  | dequeueOp : Op T
  | peekOp : Op T
  | isEmptyOp : Op T
deriving Repr, DecidableEq

/-- Run one public operation on the queue state, discarding its return value;
`none` means the operation blocks forever (its internal `lock` call never
acquires the lock). -/
def runOp (fuel : Nat) (q : SingleSlotQueue T) : Op T → Option (SingleSlotQueue T)
  | .enqueueOp v => some (enqueue q v).2
  | .enqueueOverwriteOp v => enqueue_overwrite fuel q v
  | .dequeueOp => (dequeue fuel q).map Prod.snd
  | .peekOp => (peek fuel q).map Prod.snd
  | .isEmptyOp => some q

/-- Run a sequence of public operations from a given state. -/
def runOps (fuel : Nat) (q : SingleSlotQueue T) : List (Op T) → Option (SingleSlotQueue T)
  | [] => some q
  | op :: ops =>
    match runOp fuel q op with
    | none => none
    | some q' => runOps fuel q' ops

/-- The state invariant of the sequential model: the writing lock is free
between operations, and whenever `full` is set the slot holds a validly
constructed value. -/
def Inv (q : SingleSlotQueue T) : Prop :=
  q.writing = false ∧ (q.full = true → q.val.isSome = true)

instance (q : SingleSlotQueue T) : Decidable (Inv q) := by
  unfold Inv; infer_instance

/-- Acquiring a free lock succeeds with any positive fuel, leaving the flag
set. -/
theorem lock_free (fuel : Nat) : lock (fuel + 1) false = some true := by
  simp [lock, try_lock]

/-- Acquiring a held lock never succeeds in the sequential model. -/
theorem lock_held (fuel : Nat) : lock fuel true = none := by
  induction fuel with
  | zero => rfl
  | succ n ih => simpa [lock, try_lock] using ih

/-- Any single public operation run with the writing lock free returns (does
not block), leaves the lock free, and preserves the slot-validity
invariant. -/
theorem runOp_step (fuel : Nat) (q : SingleSlotQueue T) (op : Op T)
    (hw : q.writing = false) :
    ∃ q', runOp (fuel + 1) q op = some q' ∧ q'.writing = false ∧
      ((q.full = true → q.val.isSome = true) →
        (q'.full = true → q'.val.isSome = true)) := by
  cases op with
  | enqueueOp v =>
    by_cases h : q.full = true <;>
      exact ⟨_, rfl, by simp [enqueue, h, hw], by simp [enqueue, h]⟩
  | enqueueOverwriteOp v =>
    exact ⟨⟨true, false, some v⟩,
      by simp [runOp, enqueue_overwrite, hw, lock_free, LightGuard.drop],
      rfl, by simp⟩
  | dequeueOp =>
    by_cases h : q.full = true
    · exact ⟨⟨false, false, q.val⟩,
        by simp [runOp, dequeue, h, hw, lock_free, LightGuard.drop],
        rfl, by simp⟩
    · exact ⟨q, by simp [runOp, dequeue, h], hw, fun hi => hi⟩
  | peekOp =>
    by_cases h : q.full = true
    · exact ⟨⟨true, false, q.val⟩,
        by simp [runOp, peek, h, hw, lock_free, LightGuard.drop],
        rfl, fun hi _ => hi h⟩
    · exact ⟨q, by simp [runOp, peek, h], hw, fun hi => hi⟩
  | isEmptyOp =>
    exact ⟨q, rfl, hw, fun hi => hi⟩

/-- Any sequence of public operations run from a state satisfying the
invariant returns (never blocks) and preserves the invariant. -/
theorem runOps_inv (fuel : Nat) (ops : List (Op T)) :
    ∀ q : SingleSlotQueue T, Inv q →
      ∃ q', runOps (fuel + 1) q ops = some q' ∧ Inv q' := by
  induction ops with
  | nil => exact fun q hq => ⟨q, rfl, hq⟩
  | cons op ops ih =>
    intro q hq
    obtain ⟨q₁, hstep, hw₁, hval₁⟩ := runOp_step fuel q op hq.1
    obtain ⟨q', hrun, hq'⟩ := ih q₁ ⟨hw₁, hval₁ hq.2⟩
    exact ⟨q', by simp [runOps, hstep, hrun], hq'⟩

/-- C1: starting from a freshly constructed queue (`full = false`, writing
lock unlocked, slot uninitialized), every sequence of the public operations
`enqueue`, `enqueue_overwrite`, `dequeue`, `peek` and `is_empty` preserves the
invariant that whenever the `full` flag is true, the slot holds a validly
constructed value of type `T`. -/
theorem C1_fresh_queue_invariant (ops : List (Op T)) (fuel : Nat) :
    ∃ q', runOps (fuel + 1) (SingleSlotQueue.new T) ops = some q' ∧
      (q'.full = true → q'.val.isSome = true) := by
  obtain ⟨q', hrun, hq'⟩ :=
    runOps_inv fuel ops (SingleSlotQueue.new T) ⟨rfl, by simp [SingleSlotQueue.new]⟩
  exact ⟨q', hrun, hq'.2⟩

/-- C2: `enqueue` on an empty queue writes the value into the slot, sets the
`full` flag and returns `none` (accepted); the next `dequeue` with no
intervening enqueue returns `some v`. -/
theorem C2_enqueue_then_dequeue (q : SingleSlotQueue T) (v : T) (fuel : Nat)
    (hfull : q.full = false) (hw : q.writing = false) :
    (enqueue q v).1 = none ∧
    (enqueue q v).2.val = some v ∧
    (enqueue q v).2.full = true ∧
    dequeue (fuel + 1) (enqueue q v).2 =
      some (some v, ⟨false, false, some v⟩) := by
  simp [enqueue, hfull, dequeue, hw, lock_free, LightGuard.drop]

/-- Witness for C2 on a fresh queue with value 5. -/
theorem C2_enqueue_then_dequeue_witness :
    ((SingleSlotQueue.new Nat).full = false ∧
      (SingleSlotQueue.new Nat).writing = false) ∧
    ((enqueue (SingleSlotQueue.new Nat) 5).1 = none ∧
      (enqueue (SingleSlotQueue.new Nat) 5).2.val = some 5 ∧
      (enqueue (SingleSlotQueue.new Nat) 5).2.full = true ∧
      dequeue 1 (enqueue (SingleSlotQueue.new Nat) 5).2 =
        some (some 5, ⟨false, false, some 5⟩)) :=
  ⟨⟨rfl, rfl⟩, C2_enqueue_then_dequeue (SingleSlotQueue.new Nat) 5 0 rfl rfl⟩

/-- C3: `enqueue_overwrite` never reports failure (it returns, with no failure
channel) in any queue state with the lock free, and a subsequent `dequeue`
with no other intervening writer returns `some v`. -/
theorem C3_overwrite_always_succeeds (q : SingleSlotQueue T) (v : T) (fuel : Nat)
    (hw : q.writing = false) :
    enqueue_overwrite (fuel + 1) q v = some ⟨true, false, some v⟩ ∧
    dequeue (fuel + 1) (⟨true, false, some v⟩ : SingleSlotQueue T) =
      some (some v, ⟨false, false, some v⟩) := by
  constructor
  · simp [enqueue_overwrite, hw, lock_free, LightGuard.drop]
  · simp [dequeue, lock_free, LightGuard.drop]

/-- Witness for C3: scenario B, a queue holding 50, overwritten with 25. -/
theorem C3_overwrite_always_succeeds_witness :
    (SingleSlotQueue.mk true false (some 50) : SingleSlotQueue Nat).writing = false ∧
    (enqueue_overwrite 1 (SingleSlotQueue.mk true false (some 50)) 25 =
        some ⟨true, false, some 25⟩ ∧
      dequeue 1 (⟨true, false, some 25⟩ : SingleSlotQueue Nat) =
        some (some 25, ⟨false, false, some 25⟩)) :=
  ⟨rfl, C3_overwrite_always_succeeds (SingleSlotQueue.mk true false (some 50)) 25 0 rfl⟩

/-- C4: `enqueue` on an occupied queue returns `some v` with `v` unchanged and
mutates nothing: the result state is exactly the input state (same `full`
flag, same slot contents, same writing lock). -/
theorem C4_enqueue_full_rejects (q : SingleSlotQueue T) (v : T)
    (hfull : q.full = true) :
    enqueue q v = (some v, q) := by
  simp [enqueue, hfull]

/-- Witness for C4: scenario A, a queue holding 50 rejects `enqueue 2`. -/
theorem C4_enqueue_full_rejects_witness :
    (SingleSlotQueue.mk true false (some 50) : SingleSlotQueue Nat).full = true ∧
    enqueue (SingleSlotQueue.mk true false (some 50) : SingleSlotQueue Nat) 2 =
      (some 2, SingleSlotQueue.mk true false (some 50)) :=
  ⟨rfl, C4_enqueue_full_rejects (SingleSlotQueue.mk true false (some 50)) 2 rfl⟩

/-- C5: `peek` is non-destructive: after `peek` returns `some v`, an immediate
second `peek` returns `some v` from the same state, a following `dequeue`
returns `some v`, and `peek` never clears the `full` flag. -/
theorem C5_peek_nondestructive (q : SingleSlotQueue T) (v : T) (fuel fuel' : Nat)
    (hw : q.writing = false) (q₁ : SingleSlotQueue T)
    (hpeek : peek (fuel + 1) q = some (some v, q₁)) :
    peek (fuel' + 1) q₁ = some (some v, q₁) ∧
    dequeue (fuel' + 1) q₁ = some (some v, ⟨false, false, some v⟩) ∧
    q₁.full = q.full := by
  by_cases h : q.full = true
  · rw [peek] at hpeek
    simp [h, hw, lock_free, LightGuard.drop] at hpeek
    obtain ⟨hval, hq₁⟩ := hpeek
    subst hq₁
    simp [peek, dequeue, h, hval, lock_free, LightGuard.drop]
  · simp [peek, h] at hpeek

/-- Witness for C5 on a queue holding 7. -/
theorem C5_peek_nondestructive_witness :
    ((SingleSlotQueue.mk true false (some 7) : SingleSlotQueue Nat).writing = false ∧
      peek 1 (SingleSlotQueue.mk true false (some 7) : SingleSlotQueue Nat) =
        some (some 7, SingleSlotQueue.mk true false (some 7))) ∧
    (peek 1 (SingleSlotQueue.mk true false (some 7) : SingleSlotQueue Nat) =
        some (some 7, SingleSlotQueue.mk true false (some 7)) ∧
      dequeue 1 (SingleSlotQueue.mk true false (some 7) : SingleSlotQueue Nat) =
        some (some 7, ⟨false, false, some 7⟩) ∧
      (SingleSlotQueue.mk true false (some 7) : SingleSlotQueue Nat).full =
        (SingleSlotQueue.mk true false (some 7) : SingleSlotQueue Nat).full) :=
  ⟨⟨rfl, by decide⟩,
    C5_peek_nondestructive (SingleSlotQueue.mk true false (some 7)) 7 0 0 rfl
      (SingleSlotQueue.mk true false (some 7)) (by decide)⟩

/-- C6: on an empty queue, `dequeue` and `peek` return `none` without taking
the writing lock (they succeed even with zero lock fuel) and without changing
any state, and repeated calls keep returning the same unchanged state until an
enqueue occurs. -/
theorem C6_empty_reads_stable (q : SingleSlotQueue T) (fuel n : Nat)
    (hfull : q.full = false) :
    dequeue fuel q = some (none, q) ∧
    peek fuel q = some (none, q) ∧
    runOps fuel q (List.replicate n Op.dequeueOp) = some q ∧
    runOps fuel q (List.replicate n Op.peekOp) = some q := by
  refine ⟨by simp [dequeue, hfull], by simp [peek, hfull], ?_, ?_⟩ <;>
  · induction n with
    | zero => rfl
    | succ m ih =>
      simpa [List.replicate_succ, runOps, runOp, dequeue, peek, hfull] using ih

/-- Witness for C6 on a fresh queue, with zero lock fuel and two repetitions. -/
theorem C6_empty_reads_stable_witness :
    (SingleSlotQueue.new Nat).full = false ∧
    (dequeue 0 (SingleSlotQueue.new Nat) = some (none, SingleSlotQueue.new Nat) ∧
      peek 0 (SingleSlotQueue.new Nat) = some (none, SingleSlotQueue.new Nat) ∧
      runOps 0 (SingleSlotQueue.new Nat) (List.replicate 2 Op.dequeueOp) =
        some (SingleSlotQueue.new Nat) ∧
      runOps 0 (SingleSlotQueue.new Nat) (List.replicate 2 Op.peekOp) =
        some (SingleSlotQueue.new Nat)) :=
  ⟨rfl, C6_empty_reads_stable (SingleSlotQueue.new Nat) 0 2 rfl⟩

/-- C7: destroying a `SingleSlotQueue` drops the slot's value exactly once if
and only if the `full` flag is true at destruction time; when the flag is
false nothing is dropped and nothing is leaked. -/
theorem C7_destroy_drops_iff_full (q : SingleSlotQueue T)
    (hinv : q.full = true → q.val.isSome = true) :
    (SingleSlotQueue.destroy q).length = (if q.full = true then 1 else 0) ∧
    (q.full = false → SingleSlotQueue.destroy q = []) ∧
    (∀ x, q.val = some x → q.full = true → SingleSlotQueue.destroy q = [x]) := by
  by_cases h : q.full = true
  · obtain ⟨x, hx⟩ := Option.isSome_iff_exists.mp (hinv h)
    refine ⟨by simp [SingleSlotQueue.destroy, h, hx], by simp [h], ?_⟩
    intro y hy _
    rw [hx] at hy
    cases hy
    simp [SingleSlotQueue.destroy, h, hx]
  · refine ⟨by simp [SingleSlotQueue.destroy, h], fun _ => by
      simp [SingleSlotQueue.destroy, h], fun y _ hfull => absurd hfull h⟩

/-- Witness for C7 on an occupied queue holding 3. -/
theorem C7_destroy_drops_iff_full_witness :
    ((SingleSlotQueue.mk true false (some 3) : SingleSlotQueue Nat).full = true →
      (SingleSlotQueue.mk true false (some 3) : SingleSlotQueue Nat).val.isSome = true) ∧
    ((SingleSlotQueue.destroy (SingleSlotQueue.mk true false (some 3) :
        SingleSlotQueue Nat)).length =
      (if (SingleSlotQueue.mk true false (some 3) :
        SingleSlotQueue Nat).full = true then 1 else 0) ∧
      ((SingleSlotQueue.mk true false (some 3) : SingleSlotQueue Nat).full = false →
        SingleSlotQueue.destroy (SingleSlotQueue.mk true false (some 3) :
          SingleSlotQueue Nat) = []) ∧
      (∀ x, (SingleSlotQueue.mk true false (some 3) :
          SingleSlotQueue Nat).val = some x →
        (SingleSlotQueue.mk true false (some 3) : SingleSlotQueue Nat).full = true →
        SingleSlotQueue.destroy (SingleSlotQueue.mk true false (some 3) :
          SingleSlotQueue Nat) = [x])) :=
  ⟨fun _ => rfl,
    C7_destroy_drops_iff_full (SingleSlotQueue.mk true false (some 3)) fun _ => rfl⟩

/-- C8: `try_lock` returns a guard exactly when the flag was false,
transitioning it to true; on an already-locked flag it returns `none` and the
flag remains true; dropping the guard obtained from an acquire stores the flag
back to false. -/
theorem C8_try_lock_semantics :
    (∀ flag : Bool, ((try_lock flag).1.isSome = true ↔ flag = false) ∧
      (try_lock flag).2 = true) ∧
    try_lock true = (none, true) ∧
    try_lock false = (some (), true) ∧
    LightGuard.drop (try_lock false).2 = false := by
  decide

/-- C9: `lock` busy-waits on `try_lock`; when the flag is false it terminates
(with any positive iteration fuel) and returns a guard, and when the flag is
true — so, sequentially, the lock never becomes available — it never
terminates, no matter the fuel. -/
theorem C9_lock_busy_wait :
    ∀ fuel : Nat, lock (fuel + 1) false = some true ∧ lock fuel true = none :=
  fun fuel => ⟨lock_free fuel, lock_held fuel⟩

/-- C10: in sequential execution starting from an unlocked writing lock, every
public operation returns (any guard it acquires is released before it
returns) and leaves the writing lock's flag `false`. -/
theorem C10_no_lock_leak (q : SingleSlotQueue T) (op : Op T) (fuel : Nat)
    (hw : q.writing = false) :
    ∃ q', runOp (fuel + 1) q op = some q' ∧ q'.writing = false := by
  obtain ⟨q', hstep, hw', _⟩ := runOp_step fuel q op hw
  exact ⟨q', hstep, hw'⟩

/-- Witness for C10 at a concrete state and operation. -/
theorem C10_no_lock_leak_witness :
    (SingleSlotQueue.mk true false (some 5) : SingleSlotQueue Nat).writing = false ∧
    ∃ q', runOp 1 (SingleSlotQueue.mk true false (some 5) : SingleSlotQueue Nat)
        Op.dequeueOp = some q' ∧ q'.writing = false :=
  ⟨rfl, C10_no_lock_leak (SingleSlotQueue.mk true false (some 5)) Op.dequeueOp 0 rfl⟩

end Ssq
